import Mathlib

/-!
Verification of the task-reconciliation core of the plantCalendar repository.

The embedded code is `src/plantCalendar/src/home/TaskData.js` (the TaskData
class: getGoogleData, getFirebaseData, initiate, createTask, findTask,
updateTask, completeTask) together with the time-spent update
`addTimeSpent` of the ViewTaskModal component.

Modelling conventions:
  - Remote services are modelled by their data: the task-list service
    response is a list of task lists, the document store is a function from
    task id to the stored document (the init loop of getFirebaseData and of
    createTask makes the document exist before it is read, so the store is
    total).
  - Writes to the remote services are recorded as explicit effect values
    (FsEffect, GEffect) returned next to the new local state.
  - JS numbers that hold hours (estTimeToComplete, timeSpent) are modelled
    as rationals; JS Date objects are modelled by their ISO serialization.
  - A record field that JS `delete` removes, or that was never assigned, is
    an `Option` that is `none`.
  - A thrown exception / rejected promise is an `Except.error` (or `none`
    for the enrichment loop); the state returned next to it is the state at
    the moment of the throw.
-/

namespace TaskData

/-- A JS Date object as handed around by the app, represented by its
ISO-8601 serialization (what toISOString returns on it). -/
structure JsDate where
  iso : String
deriving DecidableEq, Repr

/-- A value stored in the dueDateAndTime field of a local record: the code
stores a plain string there in getFirebaseData and updateTask, but the raw
Date object in createTask. -/
inductive DueVal where
  | str (s : String)
  | date (d : JsDate)
deriving DecidableEq, Repr

/-- One element of this.taskArray: a JSON task object.  After getGoogleData
only name, id, taskListId, dueDay are present; getFirebaseData adds
priority, estTimeToComplete, timeSpent, dueDateAndTime and deletes dueDay. -/
structure TaskRec where
  name : String
  id : String
  taskListId : String
  dueDay : Option String := none
  priority : Option String := none
  estTimeToComplete : Option ℚ := none
  timeSpent : Option ℚ := none
  dueDateAndTime : Option DueVal := none
deriving DecidableEq, Repr

/-- One task as returned by the task-list service (Google Tasks). -/
structure GTask where
  id : String
  title : String
  status : String
  due : String
deriving DecidableEq, Repr

/-- One task list as returned by the task-list service, with its tasks. -/
structure GTaskList where
  id : String
  items : List GTask
deriving DecidableEq, Repr

/-- A document of the document store (Firestore) for one task, as read back
by getFirebaseData.  dueTime is optional in the store. -/
structure FbDoc where
  priority : String
  estTimeToComplete : Option ℚ
  timeSpent : ℚ
  dueTime : Option String
deriving DecidableEq, Repr

/-- A write issued to the document store (FirestoreHandle calls). -/
inductive FsEffect where
  | initTask (userEmail taskId name : String)
  | updateTask (userEmail taskId name priority : String)
      (estTimeToComplete : Option ℚ) (timeSpent : ℚ) (completed : Bool)
      (dueDate : JsDate)
  | setComplete (userEmail taskId : String) (completed : Bool)
  | setTimeSpent (userEmail taskId : String) (timeSpent : ℚ)
deriving DecidableEq, Repr

/-- A write issued to the task-list service (GoogleHandle calls). -/
inductive GEffect where
  | updateGoogle (taskId taskListId name : String) (dueDate : JsDate)
  | completeGoogle (taskId : String) (taskListId : Option String)
deriving DecidableEq, Repr

/-- The partial record that getGoogleData builds for one open task:
`{ name: task.title, id: task.id, taskListId: <list id>, dueDay: task.due }`. -/
def mkPartialTask (taskListId : String) (t : GTask) : TaskRec :=
  { name := t.title, id := t.id, taskListId := taskListId, dueDay := some t.due }

/-- Inner loop of getGoogleData over the tasks of one task list: appends a
partial record to the accumulator for every task whose status is not
"completed" (`if (task.status != "completed")`). -/
def collectTasks (taskListId : String) (acc : List TaskRec) :
    List GTask → List TaskRec
  | [] => acc
  | t :: ts =>
    if t.status != "completed" then
      collectTasks taskListId (acc ++ [mkPartialTask taskListId t]) ts
    else
      collectTasks taskListId acc ts

/-- Outer loop of getGoogleData over the task lists of the response. -/
def getGoogleDataLoop (acc : List TaskRec) : List GTaskList → List TaskRec
  | [] => acc
  | l :: ls => getGoogleDataLoop (collectTasks l.id acc l.items) ls

/-- getGoogleData: builds tempTaskArray from the task-list service response,
keeping only tasks whose status is not "completed", and replaces
this.taskArray with it. -/
def getGoogleData (taskLists : List GTaskList) : List TaskRec :=
  getGoogleDataLoop [] taskLists

/-- The partial records of the open (not completed) tasks of one list, in
response order. -/
def openTasksOf (l : GTaskList) : List TaskRec :=
  (l.items.filter (fun t => t.status != "completed")).map (mkPartialTask l.id)

/-- The ids of all tasks of the task-list service response (both open and
completed ones), in response order. -/
def allTaskIds (taskLists : List GTaskList) : List String :=
  (taskLists.flatMap (fun l => l.items)).map (fun t => t.id)

/-- The ids of the records of a local task array, in order. -/
def taskIds (arr : List TaskRec) : List String :=
  arr.map (fun r => r.id)

/-- The field writes that the getFirebaseData loop body performs on one
record: priority, estTimeToComplete, timeSpent are copied from the document,
dueDateAndTime is set to the given value, and `delete ...dueDay` removes
dueDay. -/
def enrichFields (fb : FbDoc) (t : TaskRec) (due : Option DueVal) : TaskRec :=
  { t with priority := some fb.priority,
           estTimeToComplete := fb.estTimeToComplete,
           timeSpent := some fb.timeSpent,
           dueDateAndTime := due,
           dueDay := none }

/-- Body of the getFirebaseData loop for one record.  `if (taskFbData.dueTime)`
is a JS truthiness test: it is taken when dueTime is present and non-empty.
In that branch `dueDay.substring(0, 10)` is evaluated; when dueDay is absent
this throws a TypeError, modelled by `none`.  Otherwise dueDateAndTime keeps
the (possibly absent) dueDay value. -/
def enrichTask (store : String → FbDoc) (t : TaskRec) : Option TaskRec :=
  let taskFbData := store t.id
  match taskFbData.dueTime with
  | some dueTime =>
    if dueTime != "" then
      match t.dueDay with
      | some day => some (enrichFields taskFbData t
          (some (DueVal.str (day.take 10 ++ dueTime))))
      | none => none
    else
      some (enrichFields taskFbData t (t.dueDay.map DueVal.str))
  | none => some (enrichFields taskFbData t (t.dueDay.map DueVal.str))

/-- The second loop of getFirebaseData, over the records of taskArray in
order; `none` when some iteration throws. -/
def enrichLoop (store : String → FbDoc) : List TaskRec → Option (List TaskRec)
  | [] => some []
  | t :: ts =>
    match enrichTask store t, enrichLoop store ts with
    | some t2, some ts2 => some (t2 :: ts2)
    | _, _ => none

/-- getFirebaseData: its first loop issues an initFirebaseTaskData write for
every record (create-if-absent, which is why the store is modelled total),
its second loop reads each document of the store and rewrites the records of
taskArray in place. -/
def getFirebaseData (userEmail : String) (store : String → FbDoc)
    (arr : List TaskRec) : List FsEffect × Option (List TaskRec) :=
  (arr.map (fun t => FsEffect.initTask userEmail t.id t.name),
   enrichLoop store arr)

/-- initiate: awaits getGoogleData then getFirebaseData on its result and
resolves to the final taskArray. -/
def initiate (userEmail : String) (store : String → FbDoc)
    (taskLists : List GTaskList) : Option (List TaskRec) :=
  (getFirebaseData userEmail store (getGoogleData taskLists)).2

/-- createTask: awaits createGoogleTask (the result of that call appears
here as googleResult: the new task id, or a rejection); on success it issues
the two document-store writes and appends one record to taskArray
(`this.taskArray[this.taskArray.length] = newTask`).  If the awaited call
rejects, nothing after it runs: the state is unchanged and no write is
issued. -/
def createTask (userEmail : String) (st : List TaskRec)
    (googleResult : Except String String) (name : String) (dueDate : JsDate)
    (priority : String) (estTimeToComplete : Option ℚ) :
    Except String Unit × List TaskRec × List FsEffect :=
  match googleResult with
  | Except.error e => (Except.error e, st, [])
  | Except.ok taskId =>
    let newTask : TaskRec :=
      { name := name,
        id := taskId,
        taskListId := "@default",
        priority := some priority,
        estTimeToComplete := estTimeToComplete,
        dueDateAndTime := some (DueVal.date dueDate),
        timeSpent := some 0 }
    (Except.ok (),
     st ++ [newTask],
     [FsEffect.initTask userEmail taskId name,
      FsEffect.updateTask userEmail taskId name priority estTimeToComplete
        0 false dueDate])

/-- findTask: linear scan of taskArray for the first record whose id equals
taskId; when the loop falls through, the JS function only logs and returns
undefined, modelled by `none`. -/
def findTask : List TaskRec → String → Option Nat
  | [], _ => none
  | r :: rs, taskId =>
    if r.id == taskId then some 0
    else (findTask rs taskId).map (fun i => i + 1)

/-- Replace the element at the given position by the image under f, as the
in-place field assignments of updateTask do; out-of-range leaves the list
unchanged. -/
def listModify (f : TaskRec → TaskRec) : Nat → List TaskRec → List TaskRec
  | _, [] => []
  | 0, r :: rs => f r :: rs
  | n + 1, r :: rs => r :: listModify f n rs

/-- The five field assignments updateTask performs on the found record:
name, dueDateAndTime (as dueDate.toISOString()), priority,
estTimeToComplete, timeSpent.  id and taskListId are not assigned. -/
def setTaskFields (name : String) (dueDate : JsDate) (priority : String)
    (estTimeToComplete : Option ℚ) (timeSpent : ℚ) (r : TaskRec) : TaskRec :=
  { r with name := name,
           dueDateAndTime := some (DueVal.str dueDate.iso),
           priority := some priority,
           estTimeToComplete := estTimeToComplete,
           timeSpent := some timeSpent }

/-- updateTask: issues the updateGoogleTask call (whose awaited result,
which the code reassigns to taskId, appears here as googleReturnedId), then
the updateFirebaseTaskData write keyed by that returned id, then mutates the
local record at findTask(returned id).  When findTask finds nothing it
returns undefined and `this.taskArray[undefined].name = ...` throws a
TypeError before any local field is assigned. -/
def updateTask (userEmail : String) (st : List TaskRec)
    (taskId taskListId name : String) (dueDate : JsDate) (priority : String)
    (estTimeToComplete : Option ℚ) (timeSpent : ℚ)
    (googleReturnedId : String) :
    Except String Unit × List TaskRec × List GEffect × List FsEffect :=
  let gEff := [GEffect.updateGoogle taskId taskListId name dueDate]
  let tid := googleReturnedId
  let fsEff := [FsEffect.updateTask userEmail tid name priority
    estTimeToComplete timeSpent false dueDate]
  match findTask st tid with
  | some i =>
    (Except.ok (),
     listModify (setTaskFields name dueDate priority estTimeToComplete
       timeSpent) i st,
     gEff, fsEff)
  | none => (Except.error "TypeError: cannot set property of undefined",
     st, gEff, fsEff)

/-- completeTask: issues the setTaskCompleteInFirebase write and the
completeGoogleTask call (taskListId passed as undefined), then does
`this.taskArray.splice(this.findTask(taskId), 1)`.  When findTask returns
undefined, JS splice coerces the start index undefined to 0, so the call
removes the first element of a non-empty array. -/
def completeTask (userEmail : String) (st : List TaskRec) (taskId : String) :
    List TaskRec × List FsEffect × List GEffect :=
  let fsEff := [FsEffect.setComplete userEmail taskId true]
  let gEff := [GEffect.completeGoogle taskId none]
  let i := (findTask st taskId).getD 0
  (st.eraseIdx i, fsEff, gEff)

/-- addTimeSpent (ViewTaskModal): computes
newTimeSpent = task.timeSpent + state.inputTimeSpent, writes it to the
document store, and sets the displayed time left to
estTimeToComplete - newTimeSpent, clamped to 0 when negative.  Returns
(displayTimeSpent, displayTimeLeft) next to the issued write. -/
def addTimeSpent (userEmail taskId : String)
    (estTimeToComplete taskTimeSpent inputTimeSpent : ℚ) :
    (ℚ × ℚ) × FsEffect :=
  let newTimeSpent := taskTimeSpent + inputTimeSpent
  let eff := FsEffect.setTimeSpent userEmail taskId newTimeSpent
  let newTimeLeft := estTimeToComplete - newTimeSpent
  let clamped := if newTimeLeft < 0 then 0 else newTimeLeft
  ((newTimeSpent, clamped), eff)

/-! Concrete sample data used to instantiate the theorems below. -/

/-- A task-list service response with one list holding one completed and one
open task. -/
def demoLists1 : List GTaskList :=
  [{ id := "L1",
     items := [{ id := "t1", title := "done one", status := "completed",
                 due := "2022-04-04T00:00:00.000Z" },
               { id := "t2", title := "open one", status := "needsAction",
                 due := "2022-04-05T00:00:00.000Z" }] }]

/-- A document store giving every task the same document, without dueTime. -/
def demoStore1 : String → FbDoc :=
  fun _ => { priority := "low", estTimeToComplete := some 2, timeSpent := 0,
             dueTime := none }

/-- A record as getGoogleData leaves it, with a date-only dueDay. -/
def demoRec2 : TaskRec :=
  { name := "essay", id := "b", taskListId := "L1",
    dueDay := some "2022-04-05T00:00:00.000Z" }

/-- A document store that supplies a time of day. -/
def demoStore2t : String → FbDoc :=
  fun _ => { priority := "high", estTimeToComplete := some 3, timeSpent := 1,
             dueTime := some "T17:23:42" }

/-- A document store that supplies no time of day. -/
def demoStore2n : String → FbDoc :=
  fun _ => { priority := "high", estTimeToComplete := some 3, timeSpent := 1,
             dueTime := none }

/-- A fully enriched local record with id "a". -/
def demoRec5 : TaskRec :=
  { name := "Task A", id := "a", taskListId := "L1",
    priority := some "low", estTimeToComplete := some 1,
    timeSpent := some 0, dueDateAndTime := some (DueVal.str "2022-04-05") }

/-- A fully enriched local record with id "t7". -/
def demoRec7 : TaskRec :=
  { name := "Task S", id := "t7", taskListId := "L1",
    priority := some "medium", estTimeToComplete := some 4,
    timeSpent := some 1, dueDateAndTime := some (DueVal.str "2022-04-09") }

/-- A fully enriched local record with id "t1" in list "L1". -/
def demoRec8 : TaskRec :=
  { name := "old name", id := "t1", taskListId := "L1",
    priority := some "low", estTimeToComplete := some 1,
    timeSpent := some 0, dueDateAndTime := some (DueVal.str "2022-04-05") }

/-- A fully enriched local record with id "t9". -/
def demoRec9 : TaskRec :=
  { name := "Task N", id := "t9", taskListId := "L1",
    priority := some "low", estTimeToComplete := some 1,
    timeSpent := some 0, dueDateAndTime := some (DueVal.str "2022-04-05") }

/-- A partial record with id "a10" as getGoogleData leaves it. -/
def demoRec10 : TaskRec :=
  { name := "Task F", id := "a10", taskListId := "L1",
    dueDay := some "2022-04-05T00:00:00.000Z" }

/-- A document store without dueTime for the C10 instance. -/
def demoStore10 : String → FbDoc :=
  fun _ => { priority := "low", estTimeToComplete := some 2, timeSpent := 0,
             dueTime := none }

/-- The record demoRec10 as getFirebaseData rewrites it under demoStore10. -/
def demoOut10 : TaskRec :=
  { name := "Task F", id := "a10", taskListId := "L1", dueDay := none,
    priority := some "low", estTimeToComplete := some 2,
    timeSpent := some 0,
    dueDateAndTime := some (DueVal.str "2022-04-05T00:00:00.000Z") }

/-- The property C1 asserts of a task-list service response: completed
tasks never reach the collection built by getGoogleData (nor, via initiate,
the enriched collection), and that collection holds exactly the partial
records of the non-completed tasks. -/
def C1Concl (userEmail : String) (store : String → FbDoc)
    (ls : List GTaskList) : Prop :=
  (∀ l ∈ ls, ∀ t ∈ l.items, t.status = "completed" →
      ∀ r ∈ getGoogleData ls, r.id ≠ t.id)
  ∧ (∀ r, r ∈ getGoogleData ls ↔
      ∃ l ∈ ls, ∃ t ∈ l.items, t.status ≠ "completed"
        ∧ r = mkPartialTask l.id t)
  ∧ (∀ out, initiate userEmail store ls = some out →
      ∀ l ∈ ls, ∀ t ∈ l.items, t.status = "completed" →
        ∀ r ∈ out, r.id ≠ t.id)

/-! Helper lemmas. -/

theorem collectTasks_eq (taskListId : String) (acc : List TaskRec)
    (ts : List GTask) :
    collectTasks taskListId acc ts =
      acc ++ (ts.filter (fun t => t.status != "completed")).map
        (mkPartialTask taskListId) := by
  induction ts generalizing acc with
  | nil => simp [collectTasks]
  | cons t ts ih =>
    by_cases h : t.status != "completed"
    · simp [collectTasks, h, ih, List.filter_cons]
    · simp at h
      simp [collectTasks, h, ih, List.filter_cons]

theorem getGoogleDataLoop_eq (acc : List TaskRec) (ls : List GTaskList) :
    getGoogleDataLoop acc ls = acc ++ ls.flatMap openTasksOf := by
  induction ls generalizing acc with
  | nil => simp [getGoogleDataLoop]
  | cons l ls ih =>
    simp [getGoogleDataLoop, ih, collectTasks_eq, openTasksOf,
      List.flatMap_cons, List.append_assoc]

theorem getGoogleData_eq (ls : List GTaskList) :
    getGoogleData ls = ls.flatMap openTasksOf := by
  simp [getGoogleData, getGoogleDataLoop_eq]

theorem taskIds_openTasksOf (l : GTaskList) :
    taskIds (openTasksOf l) =
      (l.items.filter (fun t => t.status != "completed")).map
        (fun t => t.id) := by
  unfold taskIds openTasksOf
  rw [List.map_map]
  rfl

theorem enrichTask_frame {store : String → FbDoc} {t r : TaskRec}
    (h : enrichTask store t = some r) :
    r.id = t.id ∧ r.name = t.name ∧ r.taskListId = t.taskListId
      ∧ r.dueDay = none
      ∧ r.priority = some (store t.id).priority
      ∧ r.estTimeToComplete = (store t.id).estTimeToComplete
      ∧ r.timeSpent = some (store t.id).timeSpent := by
  rw [enrichTask.eq_def] at h
  dsimp at h
  split at h
  · split at h
    · split at h
      · injection h with h
        subst h
        simp [enrichFields]
      · exact absurd h (by simp)
    · injection h with h
      subst h
      simp [enrichFields]
  · injection h with h
    subst h
    simp [enrichFields]

theorem enrichLoop_taskIds {store : String → FbDoc}
    {arr out : List TaskRec} (h : enrichLoop store arr = some out) :
    taskIds out = taskIds arr := by
  induction arr generalizing out with
  | nil =>
    simp [enrichLoop] at h
    subst h
    rfl
  | cons t ts ih =>
    rw [enrichLoop] at h
    split at h
    next t2 ts2 h1 h2 =>
      injection h with h
      subst h
      have hids := ih h2
      simp only [taskIds, List.map_cons] at hids ⊢
      rw [(enrichTask_frame h1).1, hids]
    next => exact absurd h (by simp)

theorem findTask_decomp (f : TaskRec → TaskRec) {st : List TaskRec}
    {tid : String} (h : ∃ r ∈ st, r.id = tid) :
    ∃ pre r post, st = pre ++ r :: post ∧ r.id = tid
      ∧ (∀ r2 ∈ pre, r2.id ≠ tid)
      ∧ findTask st tid = some pre.length
      ∧ listModify f pre.length st = pre ++ f r :: post
      ∧ st.eraseIdx pre.length = pre ++ post := by
  induction st with
  | nil => simp at h
  | cons a as ih =>
    by_cases ha : a.id = tid
    · exact ⟨[], a, as, rfl, ha, by simp, by simp [findTask, ha],
        by simp [listModify], by simp⟩
    · have h2 : ∃ r ∈ as, r.id = tid := by
        rcases h with ⟨r, hr, hid⟩
        rcases List.mem_cons.mp hr with h1 | h1
        · exact absurd (h1 ▸ hid) ha
        · exact ⟨r, h1, hid⟩
      rcases ih h2 with ⟨pre, r, post, hst, hid, hpre, hfind, hmod, herase⟩
      refine ⟨a :: pre, r, post, by simp [hst], hid, ?_, ?_, ?_, ?_⟩
      · intro r2 hr2
        rcases List.mem_cons.mp hr2 with h1 | h1
        · exact h1 ▸ ha
        · exact hpre r2 h1
      · simp [findTask, ha, hfind]
      · simp [listModify, hmod]
      · simp [List.eraseIdx_cons_succ, herase]

theorem taskIds_getGoogleData_sublist (ls : List GTaskList) :
    (taskIds (getGoogleData ls)).Sublist (allTaskIds ls) := by
  rw [getGoogleData_eq]
  induction ls with
  | nil => simp [taskIds, allTaskIds]
  | cons l ls ih =>
    have h1 : taskIds ((l :: ls).flatMap openTasksOf)
        = taskIds (openTasksOf l) ++ taskIds (ls.flatMap openTasksOf) := by
      simp [taskIds, List.flatMap_cons]
    have h2 : allTaskIds (l :: ls)
        = l.items.map (fun t => t.id) ++ allTaskIds ls := by
      simp [allTaskIds, List.flatMap_cons]
    rw [h1, h2]
    refine List.Sublist.append ?_ ih
    rw [taskIds_openTasksOf]
    exact (List.filter_sublist _).map _

theorem listModify_taskIds (f : TaskRec → TaskRec)
    (hf : ∀ r, (f r).id = r.id) (i : Nat) (st : List TaskRec) :
    taskIds (listModify f i st) = taskIds st := by
  induction st generalizing i with
  | nil => cases i <;> rfl
  | cons r rs ih =>
    cases i with
    | zero => simp [listModify, taskIds, hf]
    | succ n =>
      have hrec := ih n
      simp only [listModify, taskIds, List.map_cons] at hrec ⊢
      rw [hrec]

theorem enrichLoop_forall2 (store : String → FbDoc) :
    ∀ {arr out : List TaskRec}, enrichLoop store arr = some out →
    List.Forall₂ (fun r2 r => r2.id = r.id ∧ r2.name = r.name
      ∧ r2.taskListId = r.taskListId ∧ r2.dueDay = none
      ∧ r2.priority = some (store r.id).priority
      ∧ r2.estTimeToComplete = (store r.id).estTimeToComplete
      ∧ r2.timeSpent = some (store r.id).timeSpent) out arr := by
  intro arr
  induction arr with
  | nil =>
    intro out h
    simp [enrichLoop] at h
    subst h
    exact List.Forall₂.nil
  | cons t ts ih =>
    intro out h
    rw [enrichLoop] at h
    split at h
    next t2 ts2 he hl =>
      injection h with h
      subst h
      exact List.Forall₂.cons (enrichTask_frame he) (ih hl)
    next => exact absurd h (by simp)

/-! Claim theorems. -/

/-- C3: for every task with an estimate and every non-negative added time,
the displayed time left after addTimeSpent equals
max(0, estTimeToComplete - (previous timeSpent + added time)), so it is
never negative. -/
theorem addTimeSpent_timeLeft (userEmail taskId : String)
    (est spent input : ℚ) (_hnn : 0 ≤ input) :
    (addTimeSpent userEmail taskId est spent input).1.2
        = max 0 (est - (spent + input))
      ∧ 0 ≤ (addTimeSpent userEmail taskId est spent input).1.2 := by
  unfold addTimeSpent
  dsimp only
  constructor
  · rcases lt_or_le (est - (spent + input)) 0 with hlt | hle
    · rw [if_pos hlt, max_eq_left hlt.le]
    · rw [if_neg (not_lt.mpr hle), max_eq_right hle]
  · split
    · exact le_refl 0
    · next hnlt => exact not_lt.mp hnlt

/-- C3 witness: the instances of the claim, est 10 and spent 12 give time
left 0, est 10 and spent 4 give time left 6. -/
theorem addTimeSpent_timeLeft_witness :
    (0:ℚ) ≤ 0
    ∧ ((addTimeSpent "u" "t" 10 12 0).1.2 = max 0 (10 - (12 + 0))
        ∧ 0 ≤ (addTimeSpent "u" "t" 10 12 0).1.2)
    ∧ ((addTimeSpent "u" "t" 10 4 0).1.2 = max 0 (10 - (4 + 0))
        ∧ 0 ≤ (addTimeSpent "u" "t" 10 4 0).1.2)
    ∧ max (0:ℚ) (10 - (12 + 0)) = 0
    ∧ max (0:ℚ) (10 - (4 + 0)) = 6 :=
  ⟨le_refl 0, addTimeSpent_timeLeft "u" "t" 10 12 0 (le_refl 0),
   addTimeSpent_timeLeft "u" "t" 10 4 0 (le_refl 0),
   by rw [max_eq_left (by norm_num)],
   by rw [max_eq_right (by norm_num)]; norm_num⟩

/-- C4: if the awaited task-list creation call rejects, createTask
propagates the rejection, issues no document-store write, and leaves the
local collection unchanged. -/
theorem createTask_error_frame (userEmail : String) (st : List TaskRec)
    (e name : String) (dueDate : JsDate) (priority : String)
    (est : Option ℚ) :
    createTask userEmail st (Except.error e) name dueDate priority est
      = (Except.error e, st, []) := rfl

/-- C6: a successful createTask call appends exactly one record, leaving
every pre-existing record unchanged; the new record carries the supplied
name, priority, estTimeToComplete, dueDateAndTime equal to the supplied
dueDate (the raw Date value), timeSpent 0, the id returned by the task-list
service, and taskListId "@default" (the default list of the user). -/
theorem createTask_ok_appends (userEmail : String) (st : List TaskRec)
    (taskId name : String) (dueDate : JsDate) (priority : String)
    (est : Option ℚ) :
    (createTask userEmail st (Except.ok taskId) name dueDate priority
        est).2.1
      = st ++ [{ name := name, id := taskId, taskListId := "@default",
                 dueDay := none, priority := some priority,
                 estTimeToComplete := est, timeSpent := some 0,
                 dueDateAndTime := some (DueVal.date dueDate) }]
    ∧ (createTask userEmail st (Except.ok taskId) name dueDate priority
        est).1 = Except.ok () :=
  ⟨rfl, rfl⟩

/-- C5 (documents the code bug): with a single record of id "a", completing
the unknown id "ghost" makes findTask return undefined (none here), yet the
operation reports no failure and the collection is not left unchanged:
splice coerces the undefined index to 0 and silently deletes the record
with id "a", while still issuing the remote completion write for "ghost". -/
theorem completeTask_unknown_id_bug :
    findTask [demoRec5] "ghost" = none
    ∧ (completeTask "u" [demoRec5] "ghost").1 = []
    ∧ (completeTask "u" [demoRec5] "ghost").2.1
        = [FsEffect.setComplete "u" "ghost" true] :=
  ⟨rfl, rfl, rfl⟩

/-- C7: for every id present in the local collection, completeTask removes
exactly the first record whose id matches: the collection decomposes as
pre ++ r :: post with r the first match and no match in pre, the result is
pre ++ post (all other records unchanged in value and relative order), and
the length shrinks by exactly one. -/
theorem completeTask_removes_first (userEmail tid : String)
    (st : List TaskRec) (h : ∃ r ∈ st, r.id = tid) :
    ∃ pre r post, st = pre ++ r :: post ∧ r.id = tid
      ∧ (∀ r2 ∈ pre, r2.id ≠ tid)
      ∧ (completeTask userEmail st tid).1 = pre ++ post
      ∧ (completeTask userEmail st tid).1.length + 1 = st.length := by
  rcases findTask_decomp id h with
    ⟨pre, r, post, hst, hid, hpre, hfind, _, herase⟩
  have hres : (completeTask userEmail st tid).1 = pre ++ post := by
    simp [completeTask, hfind, herase]
  refine ⟨pre, r, post, hst, hid, hpre, hres, ?_⟩
  rw [hres, hst]
  simp
  omega

/-- C7 witness: the decomposition at a concrete one-element collection. -/
theorem completeTask_removes_first_witness :
    (∃ r ∈ [demoRec7], r.id = "t7")
    ∧ (∃ pre r post, [demoRec7] = pre ++ r :: post ∧ r.id = "t7"
        ∧ (∀ r2 ∈ pre, r2.id ≠ "t7")
        ∧ (completeTask "u" [demoRec7] "t7").1 = pre ++ post
        ∧ (completeTask "u" [demoRec7] "t7").1.length + 1
            = [demoRec7].length) :=
  ⟨⟨demoRec7, by simp, rfl⟩,
   completeTask_removes_first "u" "t7" [demoRec7] ⟨demoRec7, by simp, rfl⟩⟩

/-- C8 counterexample: the claim says updateTask replaces the matching
record field-by-field with the supplied values, but the supplied taskListId
is never written to the local record: updating the record of id "t1" (whose
taskListId is "L1") with taskListId "L2" leaves "L1" in place. -/
theorem updateTask_counterexample :
    ((updateTask "u" [demoRec8] "t1" "L2" "new name"
        { iso := "2022-05-01T00:00:00.000Z" } "high" (some 2) 1
        "t1").2.1).map (fun r => r.taskListId) = ["L1"]
    ∧ "L1" ≠ "L2" :=
  ⟨rfl, by decide⟩

/-- C8 (amended): for every id present in the local collection (the id the
task-list service returns), updateTask succeeds and overwrites the matching
record in place: name, dueDateAndTime (the ISO serialization of dueDate),
priority, estTimeToComplete and timeSpent take the supplied values, while
the record keeps its id and taskListId and every other record is
unchanged. -/
theorem updateTask_replaces_fields (userEmail : String) (st : List TaskRec)
    (taskId taskListId name : String) (dueDate : JsDate) (priority : String)
    (est : Option ℚ) (timeSpent : ℚ) (gid : String)
    (h : ∃ r ∈ st, r.id = gid) :
    ∃ pre r post, st = pre ++ r :: post ∧ r.id = gid
      ∧ (∀ r2 ∈ pre, r2.id ≠ gid)
      ∧ (updateTask userEmail st taskId taskListId name dueDate priority
          est timeSpent gid).1 = Except.ok ()
      ∧ (updateTask userEmail st taskId taskListId name dueDate priority
          est timeSpent gid).2.1
        = pre ++
            { r with name := name,
                     dueDateAndTime := some (DueVal.str dueDate.iso),
                     priority := some priority,
                     estTimeToComplete := est,
                     timeSpent := some timeSpent } :: post := by
  rcases findTask_decomp
      (setTaskFields name dueDate priority est timeSpent) h with
    ⟨pre, r, post, hst, hid, hpre, hfind, hmod, _⟩
  exact ⟨pre, r, post, hst, hid, hpre, by simp [updateTask, hfind],
    by simp [updateTask, hfind, hmod, setTaskFields]⟩

/-- C8 witness: the amended statement at a concrete one-element
collection. -/
theorem updateTask_replaces_fields_witness :
    (∃ r ∈ [demoRec8], r.id = "t1")
    ∧ (∃ pre r post, [demoRec8] = pre ++ r :: post ∧ r.id = "t1"
        ∧ (∀ r2 ∈ pre, r2.id ≠ "t1")
        ∧ (updateTask "u" [demoRec8] "t1" "L2" "new name"
            { iso := "2022-05-01T00:00:00.000Z" } "high" (some 2) 1
            "t1").1 = Except.ok ()
        ∧ (updateTask "u" [demoRec8] "t1" "L2" "new name"
            { iso := "2022-05-01T00:00:00.000Z" } "high" (some 2) 1
            "t1").2.1
          = pre ++
              { r with name := "new name",
                       dueDateAndTime :=
                         some (DueVal.str "2022-05-01T00:00:00.000Z"),
                       priority := some "high",
                       estTimeToComplete := some 2,
                       timeSpent := some 1 } :: post) :=
  ⟨⟨demoRec8, by simp, rfl⟩,
   updateTask_replaces_fields "u" [demoRec8] "t1" "L2" "new name"
     { iso := "2022-05-01T00:00:00.000Z" } "high" (some 2) 1 "t1"
     ⟨demoRec8, by simp, rfl⟩⟩

/-- C2: for a record whose dueDay is present, the getFirebaseData loop body
merges the due date as the claim states: a supplied (non-empty, hence
JS-truthy) dueTime yields the first 10 characters of dueDay concatenated
with it, an absent dueTime leaves the dueDay value unchanged, and in both
cases the dueDay field is removed. -/
theorem enrichTask_dueDate_merge (store : String → FbDoc) (t : TaskRec)
    (day : String) (hday : t.dueDay = some day) :
    (∀ dueTime, (store t.id).dueTime = some dueTime → dueTime ≠ "" →
      ∃ r, enrichTask store t = some r
        ∧ r.dueDateAndTime = some (DueVal.str (day.take 10 ++ dueTime))
        ∧ r.dueDay = none)
    ∧ ((store t.id).dueTime = none →
      ∃ r, enrichTask store t = some r
        ∧ r.dueDateAndTime = some (DueVal.str day)
        ∧ r.dueDay = none) := by
  constructor
  · intro dueTime hdt hne
    refine ⟨enrichFields (store t.id) t
      (some (DueVal.str (day.take 10 ++ dueTime))), ?_, rfl, rfl⟩
    rw [enrichTask.eq_def]
    dsimp only
    rw [hdt, hday]
    simp [hne]
  · intro hdt
    refine ⟨enrichFields (store t.id) t (t.dueDay.map DueVal.str),
      ?_, ?_, rfl⟩
    · rw [enrichTask.eq_def]
      dsimp only
      rw [hdt]
    · simp [enrichFields, hday]

/-- C2 witness: the claim instance.  With dueDay
2022-04-05T00:00:00.000Z and store time T17:23:42 the merged value is
2022-04-05T17:23:42; without a store time the dueDay value is kept. -/
theorem enrichTask_dueDate_merge_witness :
    demoRec2.dueDay = some "2022-04-05T00:00:00.000Z"
    ∧ ((∀ dueTime, (demoStore2t demoRec2.id).dueTime = some dueTime →
          dueTime ≠ "" →
          ∃ r, enrichTask demoStore2t demoRec2 = some r
            ∧ r.dueDateAndTime = some (DueVal.str
                (String.take "2022-04-05T00:00:00.000Z" 10 ++ dueTime))
            ∧ r.dueDay = none)
        ∧ ((demoStore2t demoRec2.id).dueTime = none →
          ∃ r, enrichTask demoStore2t demoRec2 = some r
            ∧ r.dueDateAndTime
                = some (DueVal.str "2022-04-05T00:00:00.000Z")
            ∧ r.dueDay = none))
    ∧ ((∀ dueTime, (demoStore2n demoRec2.id).dueTime = some dueTime →
          dueTime ≠ "" →
          ∃ r, enrichTask demoStore2n demoRec2 = some r
            ∧ r.dueDateAndTime = some (DueVal.str
                (String.take "2022-04-05T00:00:00.000Z" 10 ++ dueTime))
            ∧ r.dueDay = none)
        ∧ ((demoStore2n demoRec2.id).dueTime = none →
          ∃ r, enrichTask demoStore2n demoRec2 = some r
            ∧ r.dueDateAndTime
                = some (DueVal.str "2022-04-05T00:00:00.000Z")
            ∧ r.dueDay = none))
    ∧ (enrichTask demoStore2t demoRec2).map (fun r => r.dueDateAndTime)
        = some (some (DueVal.str "2022-04-05T17:23:42")) :=
  ⟨rfl, enrichTask_dueDate_merge demoStore2t demoRec2 _ rfl,
   enrichTask_dueDate_merge demoStore2n demoRec2 _ rfl, rfl⟩

/-- C10: a successful getFirebaseData pass neither adds, removes nor
reorders records: output and input correspond pointwise in order (hence have
equal length), every record keeps its id, name and taskListId, dueDay is
removed, and priority, estTimeToComplete and timeSpent are the values of the
document of the store for that id. -/
theorem getFirebaseData_frame (userEmail : String) (store : String → FbDoc)
    (arr out : List TaskRec)
    (h : (getFirebaseData userEmail store arr).2 = some out) :
    out.length = arr.length
    ∧ List.Forall₂ (fun r2 r => r2.id = r.id ∧ r2.name = r.name
        ∧ r2.taskListId = r.taskListId ∧ r2.dueDay = none
        ∧ r2.priority = some (store r.id).priority
        ∧ r2.estTimeToComplete = (store r.id).estTimeToComplete
        ∧ r2.timeSpent = some (store r.id).timeSpent) out arr := by
  have hl : enrichLoop store arr = some out := h
  have hf := enrichLoop_forall2 store hl
  exact ⟨hf.length_eq, hf⟩

/-- C10 witness: the frame property at a concrete one-element collection. -/
theorem getFirebaseData_frame_witness :
    (getFirebaseData "u" demoStore10 [demoRec10]).2 = some [demoOut10]
    ∧ ([demoOut10].length = [demoRec10].length
      ∧ List.Forall₂ (fun r2 r => r2.id = r.id ∧ r2.name = r.name
          ∧ r2.taskListId = r.taskListId ∧ r2.dueDay = none
          ∧ r2.priority = some (demoStore10 r.id).priority
          ∧ r2.estTimeToComplete = (demoStore10 r.id).estTimeToComplete
          ∧ r2.timeSpent = some (demoStore10 r.id).timeSpent)
        [demoOut10] [demoRec10]) :=
  ⟨rfl, getFirebaseData_frame "u" demoStore10 [demoRec10] [demoOut10] rfl⟩

/-- C9: id uniqueness is an invariant of the collection.  If the task-list
service returns pairwise distinct task ids, getGoogleData yields a
collection with pairwise distinct record ids; a successful getFirebaseData
pass preserves distinctness (it preserves the ids); createTask preserves it
whenever the id minted by the service is fresh (and trivially when the
creation call rejects); updateTask and completeTask always preserve it. -/
theorem taskId_unique_invariant :
    (∀ ls : List GTaskList, (allTaskIds ls).Nodup →
        (taskIds (getGoogleData ls)).Nodup)
  ∧ (∀ (userEmail : String) (store : String → FbDoc)
        (arr out : List TaskRec),
        (getFirebaseData userEmail store arr).2 = some out →
        (taskIds arr).Nodup → (taskIds out).Nodup)
  ∧ (∀ (userEmail : String) (st : List TaskRec)
        (googleResult : Except String String) (name : String)
        (dueDate : JsDate) (priority : String) (est : Option ℚ),
        (taskIds st).Nodup →
        (∀ tid, googleResult = Except.ok tid → tid ∉ taskIds st) →
        (taskIds (createTask userEmail st googleResult name dueDate
          priority est).2.1).Nodup)
  ∧ (∀ (userEmail : String) (st : List TaskRec)
        (taskId taskListId name : String) (dueDate : JsDate)
        (priority : String) (est : Option ℚ) (timeSpent : ℚ)
        (gid : String),
        (taskIds st).Nodup →
        (taskIds (updateTask userEmail st taskId taskListId name dueDate
          priority est timeSpent gid).2.1).Nodup)
  ∧ (∀ (userEmail : String) (st : List TaskRec) (tid : String),
        (taskIds st).Nodup → (taskIds (completeTask userEmail st tid).1).Nodup) := by
  refine ⟨?_, ?_, ?_, ?_, ?_⟩
  · intro ls hids
    exact (taskIds_getGoogleData_sublist ls).nodup hids
  · intro userEmail store arr out h hnd
    have hl : enrichLoop store arr = some out := h
    rw [enrichLoop_taskIds hl]
    exact hnd
  · intro userEmail st googleResult name dueDate priority est hnd hok
    cases googleResult with
    | error e => exact hnd
    | ok tid =>
      have hfresh := hok tid rfl
      have hids : taskIds (createTask userEmail st (Except.ok tid) name
          dueDate priority est).2.1 = taskIds st ++ [tid] := by
        simp [createTask, taskIds]
      rw [hids, List.nodup_append]
      exact ⟨hnd, List.nodup_singleton tid,
        List.disjoint_singleton.mpr hfresh⟩
  · intro userEmail st taskId taskListId name dueDate priority est
      timeSpent gid hnd
    cases hft : findTask st gid with
    | none =>
      simp only [updateTask, hft]
      exact hnd
    | some i =>
      simp only [updateTask, hft]
      rw [listModify_taskIds
        (setTaskFields name dueDate priority est timeSpent)
        (fun r => rfl) i st]
      exact hnd
  · intro userEmail st tid hnd
    have hsub : (taskIds ((completeTask userEmail st tid).1)).Sublist
        (taskIds st) := by
      simp only [completeTask, taskIds]
      exact (List.eraseIdx_sublist st ((findTask st tid).getD 0)).map _
    exact hsub.nodup hnd

/-- C9 witness: the five conjuncts at concrete inputs. -/
theorem taskId_unique_invariant_witness :
    (allTaskIds demoLists1).Nodup
    ∧ (taskIds (getGoogleData demoLists1)).Nodup
    ∧ (getFirebaseData "u" demoStore10 [demoRec10]).2 = some [demoOut10]
    ∧ (taskIds [demoOut10]).Nodup
    ∧ (taskIds (createTask "u" [demoRec9] (Except.ok "t3") "new task"
        { iso := "2022-05-01T00:00:00.000Z" } "low" (some 1)).2.1).Nodup
    ∧ (taskIds (updateTask "u" [demoRec9] "t9" "L1" "renamed"
        { iso := "2022-05-01T00:00:00.000Z" } "low" (some 1) 0
        "t9").2.1).Nodup
    ∧ (taskIds (completeTask "u" [demoRec9] "t9").1).Nodup :=
  ⟨by decide,
   taskId_unique_invariant.1 demoLists1 (by decide),
   rfl,
   taskId_unique_invariant.2.1 "u" demoStore10 [demoRec10] [demoOut10]
     rfl (by decide),
   taskId_unique_invariant.2.2.1 "u" [demoRec9] (Except.ok "t3") "new task"
     { iso := "2022-05-01T00:00:00.000Z" } "low" (some 1) (by decide)
     (by intro tid htid; injection htid with htid; subst htid; decide),
   taskId_unique_invariant.2.2.2.1 "u" [demoRec9] "t9" "L1" "renamed"
     { iso := "2022-05-01T00:00:00.000Z" } "low" (some 1) 0 "t9"
     (by decide),
   taskId_unique_invariant.2.2.2.2 "u" [demoRec9] "t9" (by decide)⟩

/-- C1: assuming the task-list service returns pairwise distinct task ids
(the uniqueness the data model ascribes to service-assigned ids), no task
reported completed contributes its id to the collection getGoogleData
builds, that collection holds exactly the partial records
(name, id, taskListId, dueDay) of the non-completed tasks, and after a
successful initiate run the completed ids are still absent. -/
theorem getGoogleData_completed_excluded (userEmail : String)
    (store : String → FbDoc) (ls : List GTaskList)
    (hids : (allTaskIds ls).Nodup) : C1Concl userEmail store ls := by
  have hmem : ∀ r, r ∈ getGoogleData ls ↔
      ∃ l ∈ ls, ∃ t ∈ l.items, t.status ≠ "completed"
        ∧ r = mkPartialTask l.id t := by
    intro r
    rw [getGoogleData_eq]
    simp only [List.mem_flatMap, openTasksOf, List.mem_map,
      List.mem_filter, bne_iff_ne, ne_eq]
    constructor
    · rintro ⟨l, hl, t, ⟨ht, hopen⟩, hr⟩
      exact ⟨l, hl, t, ht, hopen, hr.symm⟩
    · rintro ⟨l, hl, t, ht, hopen, hr⟩
      exact ⟨l, hl, t, ⟨ht, hopen⟩, hr.symm⟩
  have hnd : (List.map (fun t => t.id)
      (ls.flatMap fun l => l.items)).Nodup := hids
  have hexcl : ∀ l ∈ ls, ∀ t ∈ l.items, t.status = "completed" →
      ∀ r ∈ getGoogleData ls, r.id ≠ t.id := by
    intro l hl t ht hc r hr hEq
    rcases (hmem r).1 hr with ⟨l2, hl2, t2, ht2, hopen, hrq⟩
    subst hrq
    have h1 : t2 ∈ ls.flatMap (fun l => l.items) :=
      List.mem_flatMap.mpr ⟨l2, hl2, ht2⟩
    have h2 : t ∈ ls.flatMap (fun l => l.items) :=
      List.mem_flatMap.mpr ⟨l, hl, ht⟩
    have heq2 : t2 = t := List.inj_on_of_nodup_map hnd h1 h2 hEq
    rw [heq2] at hopen
    exact hopen hc
  refine ⟨hexcl, hmem, ?_⟩
  intro out hout l hl t ht hc r hr hEq
  have hloop : enrichLoop store (getGoogleData ls) = some out := hout
  have hpres := enrichLoop_taskIds hloop
  have hmemid : r.id ∈ taskIds (getGoogleData ls) := by
    rw [← hpres]
    exact List.mem_map_of_mem _ hr
  rcases List.mem_map.mp hmemid with ⟨r2, hr2, hid2⟩
  exact hexcl l hl t ht hc r2 hr2 (hid2.trans hEq)

/-- C1 witness: the concrete response demoLists1, whose completed task t1
never reaches the collection while the open task t2 does. -/
theorem getGoogleData_completed_excluded_witness :
    (allTaskIds demoLists1).Nodup ∧ C1Concl "u" demoStore1 demoLists1 :=
  ⟨by decide,
   getGoogleData_completed_excluded "u" demoStore1 demoLists1 (by decide)⟩

end TaskData
